import Mathlib

/-!
Shallow embedding of the FRED regional-indicators dashboard (src/src/App.jsx).

The embedding models the resolution / fetch / cleaning / alignment pipeline of
the dashboard as pure Lean functions.  Network interaction is modelled by
oracles: a search oracle mapping a search-query string to the parsed response
of the series-search endpoint, and an observations oracle mapping a series id
to the response of the observations endpoint.  JavaScript strings are Lean
strings; JavaScript numbers carried by observations are modelled as rationals
(FRED observation values are decimal strings, which are exact rationals);
JavaScript truthiness on optional strings is modelled explicitly (the empty
string is falsy); `a.localeCompare(b)` on fixed-width ISO dates is modelled by
lexicographic comparison of code points.
-/

namespace Dashboard

/-- Lexicographic comparison of char lists by code point, modelling the
comparator `a.localeCompare(b) <= 0` used on fixed-width ISO date strings. -/
def lexLe : List Char → List Char → Bool
  | [], _ => true
  | _ :: _, [] => false
  | a :: as, b :: bs => if a = b then lexLe as bs else decide (a.toNat < b.toNat)

/-- Lexicographic string comparison used for date ordering. -/
def strLe (a b : String) : Bool := lexLe a.data b.data

/-- Check that one char list occurs at the start of another. -/
def headMatches : List Char → List Char → Bool
  | [], _ => true
  | _ :: _, [] => false
  | a :: as, b :: bs => a = b && headMatches as bs

/-- Check that the first char list occurs contiguously inside the second. -/
def containsSeg (needle : List Char) : List Char → Bool
  | [] => headMatches needle []
  | c :: cs => headMatches needle (c :: cs) || containsSeg needle cs

/-- Lower-case every character of a string, for case-insensitive regexes. -/
def lowerStr (s : String) : String := String.mk (s.data.map Char.toLower)

/-- Model of the anchored case-insensitive regex test `/^pat/i.test(s)`. -/
def startsWithCI (pat s : String) : Bool :=
  headMatches (lowerStr pat).data (lowerStr s).data

/-- Model of the unanchored case-insensitive regex test `/pat/i.test(s)`. -/
def containsCI (pat s : String) : Bool :=
  containsSeg (lowerStr pat).data (lowerStr s).data

/-- Model of `new RegExp(pat).test(s)` for a metacharacter-free pattern
(the code only uses it with CBSA digit strings). -/
def containsStr (pat s : String) : Bool := containsSeg pat.data s.data

/-- Collapse a JavaScript-falsy optional string (absent, or present but empty)
to `none`; a truthy string is kept. -/
def jsStr : Option String → Option String
  | some s => if s = "" then none else some s
  | none => none

/-- Model of `a || b` on optional strings with JavaScript truthiness. -/
def jsOr (a b : Option String) : Option String :=
  match jsStr a with
  | some s => some s
  | none => b

/-- Truthiness of an optional string: present and non-empty. -/
def strTruthy : Option String → Bool
  | some s => !(s == "")
  | none => false

/-- Decimal digit test on a character. -/
def isDigitCh (c : Char) : Bool := decide (48 ≤ c.toNat) && decide (c.toNat ≤ 57)

/-- Value of a digit string read in base 10. -/
def digitsVal (cs : List Char) : Nat := cs.foldl (fun a c => a * 10 + (c.toNat - 48)) 0

/-- Decompose a decimal literal string into sign, combined mantissa digits and
number of fractional digits. -/
def decParts (s : String) : Bool × Nat × Nat :=
  let cs := s.data
  let neg : Bool := match cs with
    | c :: _ => c = '-'
    | [] => false
  let cs2 := if neg then cs.tail else cs
  let ip := cs2.takeWhile isDigitCh
  let rest := cs2.dropWhile isDigitCh
  let fp := match rest with
    | c :: t => if c = '.' then t.takeWhile isDigitCh else []
    | [] => []
  (neg, digitsVal (ip ++ fp), fp.length)

/-- Model of JavaScript `Number(s)` restricted to the decimal observation
strings returned by the provider (sign, integer part, optional fraction). -/
def parseDecimal (s : String) : ℚ :=
  let p := decParts s
  (if p.1 then -1 else 1) * ((p.2.1 : ℚ) / (10 : ℚ) ^ p.2.2)

/-- Candidate series record returned by the series-search endpoint. -/
structure SeriesItem where
  id : String
  title : String
deriving DecidableEq

/-- Raw observation record as returned by the observations endpoint: the value
is a string, possibly the missing-data sentinel. -/
structure RawObs where
  date : String
  value : String
deriving DecidableEq

/-- Cleaned observation: ISO date and numeric value. -/
structure Obs where
  date : String
  value : ℚ
deriving DecidableEq

/-- Context object passed to an indicator pick function. -/
structure PickCtx where
  cbsa : String
  msaName : String
deriving DecidableEq

/-- Indicator registry entry (the display formatter is presentation-only and
is not part of the embedded core). -/
structure Indicator where
  label : String
  seriesIdForCbsa : String → String
  transformValue : Option (ℚ → ℚ) := none
  needsDiscovery : Bool := false
  searchText : Option (String → String) := none
  pickSeries : Option (List SeriesItem → PickCtx → Option String) := none

/-- Pick function of the EMP_RATE indicator. -/
def empPickSeries (items : List SeriesItem) (_ctx : PickCtx) : Option String :=
  let candidates := items.filter (fun s =>
    startsWithCI "LAUMT" s.id && containsCI "Unemployment Rate" s.title)
  jsOr (candidates.head?.map SeriesItem.id) (items.head?.map SeriesItem.id)

/-- Filter step of the HOUSING_HPI pick function. -/
def housingCandidates (items : List SeriesItem) : List SeriesItem :=
  items.filter (fun s =>
    startsWithCI "ACTLISCOU" s.id && containsCI "Active Listing Count" s.title)

/-- Pick function of the HOUSING_HPI indicator. -/
def housingPickSeries (items : List SeriesItem) (ctx : PickCtx) : Option String :=
  let candidates := housingCandidates items
  match candidates.find? (fun s => containsStr ctx.cbsa s.id) with
  | some s => some s.id
  | none =>
    match candidates with
    | c :: _ => some c.id
    | [] => items.head?.map SeriesItem.id

/-- Indicator EMP_RATE. -/
def EMP_RATE : Indicator :=
  { label := "Employment Rate"
    seriesIdForCbsa := fun cbsa => "LAUMT12" ++ cbsa ++ "0000000003"
    transformValue := some (fun v => 100 - v)
    needsDiscovery := true
    searchText := some (fun msaName => msaName ++ " Unemployment Rate")
    pickSeries := some empPickSeries }

/-- Indicator HOUSING_HPI. -/
def HOUSING_HPI : Indicator :=
  { label := "Housing Inventory: Active Listing Count"
    seriesIdForCbsa := fun cbsa => "ACTLISCOU" ++ cbsa
    needsDiscovery := true
    searchText := some (fun msaName =>
      "Housing Inventory: Active Listing Count in " ++ msaName)
    pickSeries := some housingPickSeries }

/-- Indicator GDP (no discovery, no transform). -/
def GDP : Indicator :=
  { label := "GDP"
    seriesIdForCbsa := fun cbsa => "RGMP" ++ cbsa }

/-- Registry lookup INDICATORS[key]. -/
def lookupIndicator : String → Option Indicator := fun k =>
  if k = "EMP_RATE" then some EMP_RATE
  else if k = "HOUSING_HPI" then some HOUSING_HPI
  else if k = "GDP" then some GDP
  else none

/-- Static override table SERIES_OVERRIDES, keyed by indicatorKey|CBSA. -/
def SERIES_OVERRIDES : List (String × String) :=
  [("HOUSING_HPI|33100", "ACTLISCOU33100"),
   ("HOUSING_HPI|45300", "ACTLISCOU45300"),
   ("HOUSING_HPI|36740", "ACTLISCOU36740")]

/-- Lookup in the static override table. -/
def lookupOverride (k : String) : Option String :=
  (SERIES_OVERRIDES.find? (fun p => p.1 == k)).map Prod.snd

/-- Region record. -/
structure Msa where
  name : String
  cbsa : String
deriving DecidableEq

/-- Static region list MSAS. -/
def MSAS : List Msa :=
  [⟨"Miami–Fort Lauderdale–West Palm Beach, FL", "33100"⟩,
   ⟨"Tampa–St. Petersburg–Clearwater, FL", "45300"⟩,
   ⟨"Orlando–Kissimmee–Sanford, FL", "36740"⟩,
   ⟨"Atlanta–Sandy Springs–Roswell, GA", "12060"⟩]

/-- Planned series row produced for each selected region. -/
structure Planned where
  cbsa : String
  msaName : String
  seriesId : String
deriving DecidableEq

/-- Resolution key indicatorKey|cbsa. -/
def mkKey (ik cbsa : String) : String := ik ++ "|" ++ cbsa

/-- Resolution of a series id for one region: static override, else discovered
id from the session map, else the deterministic pattern id (first truthy value
wins, as with the JavaScript chain staticOverride || dynamicOverride ||
indicator.seriesIdForCbsa(cbsa)). -/
def resolveSeriesId (ik : String) (ind : Indicator) (sMap : String → Option String)
    (cbsa : String) : String :=
  match jsOr (lookupOverride (mkKey ik cbsa)) (jsStr (sMap (mkKey ik cbsa))) with
  | some s => s
  | none => ind.seriesIdForCbsa cbsa

/-- Display name of a region, falling back to the code when unknown. -/
def msaNameOf (cbsa : String) : String :=
  match jsStr ((MSAS.find? (fun m => m.cbsa == cbsa)).map Msa.name) with
  | some n => n
  | none => cbsa

/-- The plannedSeries memo: one planned row per selected region. -/
def plannedSeries (ik : String) (ind : Indicator) (selected : List String)
    (sMap : String → Option String) : List Planned :=
  selected.map (fun cbsa =>
    { cbsa := cbsa
      msaName := msaNameOf cbsa
      seriesId := resolveSeriesId ik ind sMap cbsa })

/-- Search query text built for a planned row (needsDiscovery indicators all
define searchText; an absent searchText yields the empty query). -/
def searchQuery (ind : Indicator) (p : Planned) : String :=
  match ind.searchText with
  | some f => f p.msaName
  | none => ""

/-- Keys of the discovery search requests issued by one run of the effect: one
request per planned row whose key has no truthy entry in the session map (the
static override table is not consulted here, mirroring the code). -/
def discoveryKeys (ik : String) (ind : Indicator) (planned : List Planned)
    (sMap : String → Option String) : List String :=
  if ind.needsDiscovery then
    (planned.filter (fun p => !strTruthy (sMap (mkKey ik p.cbsa)))).map
      (fun p => mkKey ik p.cbsa)
  else []

/-- Outcome of one discovery lookup for a planned row, given the search oracle
keyed by query text (`none` models a non-ok search response): produces the
(key, pickedId) pair to store, or nothing. -/
def discoverEntry (ik : String) (ind : Indicator) (sMap : String → Option String)
    (searchOf : String → Option (List SeriesItem)) (p : Planned) :
    Option (String × String) :=
  let key := mkKey ik p.cbsa
  if strTruthy (sMap key) then none
  else
    match searchOf (searchQuery ind p) with
    | none => none
    | some items =>
      if items.isEmpty then none
      else
        let picked := match ind.pickSeries with
          | some pick => pick items ⟨p.cbsa, p.msaName⟩
          | none => items.head?.map SeriesItem.id
        match jsStr picked with
        | some id => some (key, id)
        | none => none

/-- Store one discovered (key, id) pair in the session map. -/
def updMap (m : String → Option String) (kv : String × String) :
    String → Option String :=
  fun k => if k = kv.1 then some kv.2 else m k

/-- Apply all discovery results of one effect run to the session map. -/
def applyDiscoveries (ik : String) (ind : Indicator) (sMap : String → Option String)
    (searchOf : String → Option (List SeriesItem)) (planned : List Planned) :
    String → Option String :=
  ((planned.map (discoverEntry ik ind sMap searchOf)).reduceOption).foldl updMap sMap

/-- Response of the observations endpoint for one series id. -/
inductive ObsResp where
  | fail (status : Nat)
  | ok (observations : List RawObs)
deriving DecidableEq

/-- Apply an optional value transform, passing the value through when the
indicator defines none. -/
def applyTransform (t : Option (ℚ → ℚ)) (r : ℚ) : ℚ :=
  match t with
  | some f => f r
  | none => r

/-- Date-ascending comparator on cleaned observations. -/
def obsLe (a b : Obs) : Bool := strLe a.date b.date

/-- Cleaning step for one fetched series: drop sentinel records, parse and
transform the values, sort by date ascending (stable sort, as in JavaScript). -/
def cleanObs (t : Option (ℚ → ℚ)) (raw : List RawObs) : List Obs :=
  ((raw.filter (fun d => !(d.value == "."))).map (fun d =>
    { date := d.date, value := applyTransform t (parseDecimal d.value) })).mergeSort obsLe

/-- Planned rows whose series id has no cache entry (a stored cleaned list is
always a truthy JavaScript array, so presence in the cache is the check). -/
def missingSeries (planned : List Planned) (cache : String → Option (List Obs)) :
    List Planned :=
  planned.filter (fun p => !(cache p.seriesId).isSome)

/-- Series ids for which an observations request is issued by one effect run. -/
def fetchRequests (planned : List Planned) (cache : String → Option (List Obs)) :
    List String :=
  (missingSeries planned cache).map Planned.seriesId

/-- Fetch and clean one series, failing on a non-ok HTTP response. -/
def fetchOne (respOf : String → ObsResp) (t : Option (ℚ → ℚ)) (sid : String) :
    Except String (String × List Obs) :=
  match respOf sid with
  | .fail s => .error ("HTTP " ++ toString s)
  | .ok raw => .ok (sid, cleanObs t raw)

/-- Concurrent await-all over the missing series: any failure rejects the
whole batch, every success contributes its cleaned series, as with
Promise.all. -/
def fetchBatch (respOf : String → ObsResp) (t : Option (ℚ → ℚ)) :
    List String → Except String (List (String × List Obs))
  | [] => .ok []
  | sid :: rest =>
    match fetchOne respOf t sid with
    | .error e => .error e
    | .ok r =>
      match fetchBatch respOf t rest with
      | .error e => .error e
      | .ok rs => .ok (r :: rs)

/-- Store one fetched series in the cache. -/
def updCache (c : String → Option (List Obs)) (kv : String × List Obs) :
    String → Option (List Obs) :=
  fun k => if k = kv.1 then some kv.2 else c k

/-- Session-level component state. -/
structure AppState where
  indicatorKey : String
  selectedMsas : List String
  seriesCache : String → Option (List Obs)
  seriesIdMap : String → Option String
  loading : Bool
  errorMsg : String

/-- Commit the outcome of the awaited observations batch: success writes every
fetched series into the cache; a rejection reaches the catch block, which
leaves the cache untouched and sets the error indicator to the empty string
(the setError call in the catch block passes an empty template literal). -/
def commitBatch (st1 : AppState) (origCache : String → Option (List Obs)) :
    Except String (List (String × List Obs)) → AppState
  | .ok results =>
    { st1 with seriesCache := results.foldl updCache origCache, loading := false }
  | .error _ => { st1 with errorMsg := "", loading := false }

/-- One run of the fetchMissing effect, given the two network oracles and the
indicator of the current key.  Discovery results are committed to the session
map before the observations batch runs, so they survive a batch failure. -/
def fetchMissing (searchOf : String → Option (List SeriesItem))
    (respOf : String → ObsResp) (ind : Indicator) (st : AppState) : AppState :=
  let planned := plannedSeries st.indicatorKey ind st.selectedMsas st.seriesIdMap
  let map1 := if ind.needsDiscovery then
      applyDiscoveries st.indicatorKey ind st.seriesIdMap searchOf planned
    else st.seriesIdMap
  let st1 := { st with seriesIdMap := map1, errorMsg := "" }
  let missing := missingSeries planned st.seriesCache
  if missing.isEmpty then { st1 with loading := false }
  else
    commitBatch st1 st.seriesCache
      (fetchBatch respOf ind.transformValue (missing.map Planned.seriesId))

/-- Indicator-change handler: clears the cache and the discovered-id map, then
switches the key. -/
def onSelectIndicator (newKey : String) (st : AppState) : AppState :=
  { st with seriesCache := fun _ => none, seriesIdMap := fun _ => none,
            indicatorKey := newKey }

/-- Unified date axis: sorted union of the dates of all planned series found
in the cache (the JavaScript Set is modelled by dedup; the final sort by a
total order makes the axis independent of which duplicate survives). -/
def unifiedDates (planned : List Planned) (cache : String → Option (List Obs)) :
    List String :=
  ((planned.map (fun p => ((cache p.seriesId).getD []).map Obs.date)).flatten.dedup).mergeSort strLe

/-- Last n elements of a list, modelling Array.prototype.slice(-n). -/
def lastN (n : Nat) (l : List α) : List α := l.drop (l.length - n)

/-- Lookup of a date in a series, modelling a Map built from the rows (a later
row with the same date overwrites an earlier one). -/
def dateLookup (rows : List Obs) (d : String) : Option ℚ :=
  rows.foldl (fun acc r => if r.date == d then some r.value else acc) none

/-- Table view handed to the presentation layer. -/
inductive TableView where
  | single (rows : List Obs)
  | multi (dates : List String) (rows : List (String × List (Option ℚ)))
deriving DecidableEq

/-- The tableData memo: one selected region gives the whole observation list;
otherwise the last 12 unified dates are pivoted by region, a missing cell
being an explicit marker (none), not zero. -/
def tableData (planned : List Planned) (cache : String → Option (List Obs)) :
    TableView :=
  match planned with
  | [p] => .single ((cache p.seriesId).getD [])
  | _ =>
    let lastDates := lastN 12 (unifiedDates planned cache)
    let rows := lastDates.map (fun d =>
      (d, planned.map (fun q => dateLookup ((cache q.seriesId).getD []) d)))
    .multi lastDates rows

/-- Rows actually rendered in single mode: the last 50 observations. -/
def singleShown (rows : List Obs) : List Obs := lastN 50 rows

/-! Concrete fixtures used by counterexamples and witnesses. -/

/-- Session map with no discovered ids. -/
def emptyStrMap : String → Option String := fun _ => none

/-- Cache with no stored series. -/
def emptyCache : String → Option (List Obs) := fun _ => none

/-- Search oracle for runs in which no search succeeds. -/
def noSearch : String → Option (List SeriesItem) := fun _ => none

/-- Search oracle returning an empty candidate list for every query. -/
def searchEmptyList : String → Option (List SeriesItem) := fun _ => some []

/-- Observations oracle failing every request with HTTP 404. -/
def respNotFound : String → ObsResp := fun _ => ObsResp.fail 404

/-- Fresh GDP session with Miami and Tampa selected. -/
def stGdp : AppState :=
  ⟨"GDP", ["33100", "45300"], emptyCache, emptyStrMap, false, "init"⟩

/-- Observations oracle where the Miami GDP request succeeds and every other
request fails with HTTP 500. -/
def respPartial : String → ObsResp := fun sid =>
  if sid = "RGMP33100" then ObsResp.ok [⟨"2024-01-01", "1"⟩] else ObsResp.fail 500

/-- Fresh HOUSING_HPI session with only Atlanta (no static override) selected. -/
def stHousingAtl : AppState :=
  ⟨"HOUSING_HPI", ["12060"], emptyCache, emptyStrMap, false, ""⟩

/-- Planned row of the Atlanta region under HOUSING_HPI with no discovery. -/
def pAtl : Planned :=
  ⟨"12060", "Atlanta–Sandy Springs–Roswell, GA", "ACTLISCOU12060"⟩

/-- Planned row of the Tampa region under GDP. -/
def pTampaGdp : Planned :=
  ⟨"45300", "Tampa–St. Petersburg–Clearwater, FL", "RGMP45300"⟩

/-- Planned row of the Miami region under HOUSING_HPI. -/
def pMiami : Planned :=
  ⟨"33100", "Miami–Fort Lauderdale–West Palm Beach, FL", "ACTLISCOU33100"⟩

/-- Planned row of the Tampa region under HOUSING_HPI. -/
def pTampa : Planned :=
  ⟨"45300", "Tampa–St. Petersburg–Clearwater, FL", "ACTLISCOU45300"⟩

/-- Cache holding one observation for the Miami active-listing series. -/
def cacheOneObs : String → Option (List Obs) := fun sid =>
  if sid = "ACTLISCOU33100" then some [⟨"2024-01-01", 0⟩] else none

/-- Fresh GDP session with only Miami selected. -/
def stGdpMiami : AppState := ⟨"GDP", ["33100"], emptyCache, emptyStrMap, false, ""⟩

/-- Observations oracle answering every request with two records sharing one
date. -/
def respDupDates : String → ObsResp := fun _ =>
  ObsResp.ok [⟨"2024-01-01", "1"⟩, ⟨"2024-01-01", "2"⟩]

/-- Candidate item matching the HOUSING_HPI filter for the Miami region. -/
def itemMiami : SeriesItem :=
  ⟨"ACTLISCOU33100", "Housing Inventory: Active Listing Count in Miami, FL"⟩

/-- Raw response with two records sharing one date. -/
def dupRaw : List RawObs := [⟨"2024-01-01", "1"⟩, ⟨"2024-01-01", "2"⟩]

/-- Raw response of the C4 cleaning scenario: one numeric record and one
missing-data sentinel record. -/
def scenarioRaw : List RawObs := [⟨"2024-01-01", "100"⟩, ⟨"2024-02-01", "."⟩]

/-! Helper lemmas about the comparators and the pipeline. -/

theorem lexLe_total : ∀ as bs, (lexLe as bs || lexLe bs as) = true := by
  intro as
  induction as with
  | nil => intro bs; cases bs <;> simp [lexLe]
  | cons a as ih =>
    intro bs
    cases bs with
    | nil => simp [lexLe]
    | cons b bs =>
      by_cases h : a = b
      · subst h; simp [lexLe, ih bs]
      · have h2 : ¬ b = a := fun e => h e.symm
        have h3 : a.toNat ≠ b.toNat := by
          intro e; exact h (Char.eq_of_val_eq (UInt32.ext e))
        simp [lexLe, h, h2]
        omega

theorem lexLe_trans : ∀ as bs cs, lexLe as bs = true → lexLe bs cs = true →
    lexLe as cs = true := by
  intro as
  induction as with
  | nil => intro bs cs _ _; simp [lexLe]
  | cons a as ih =>
    intro bs cs h1 h2
    cases bs with
    | nil => simp [lexLe] at h1
    | cons b bs =>
      cases cs with
      | nil => simp [lexLe] at h2
      | cons c cs =>
        by_cases hab : a = b <;> by_cases hbc : b = c
        · subst hab; subst hbc
          simp_all [lexLe]
          exact ih _ _ h1 h2
        · subst hab
          simp_all [lexLe]
        · subst hbc
          simp_all [lexLe]
        · simp only [lexLe, if_neg hab, if_neg hbc] at h1 h2
          have hac : a.toNat < c.toNat := by
            simp at h1 h2; omega
          have hne : ¬ a = c := by
            intro e; subst e; simp at h1 h2; omega
          simp [lexLe, hne, hac]

theorem strLe_total (a b : String) : (strLe a b || strLe b a) = true :=
  lexLe_total a.data b.data

theorem strLe_trans {a b c : String} (h1 : strLe a b = true) (h2 : strLe b c = true) :
    strLe a c = true :=
  lexLe_trans a.data b.data c.data h1 h2

theorem obsLe_total (a b : Obs) : (obsLe a b || obsLe b a) = true :=
  strLe_total a.date b.date

theorem obsLe_trans (a b c : Obs) (h1 : obsLe a b = true) (h2 : obsLe b c = true) :
    obsLe a c = true :=
  strLe_trans h1 h2

theorem mergeSort_single (le : α → α → Bool) (a : α) : List.mergeSort [a] le = [a] := by
  simp

theorem parseDecimal_100 : parseDecimal "100" = 100 := by
  unfold parseDecimal
  rw [show decParts "100" = (false, 100, 0) from by decide]
  norm_num

theorem dateLookup_acc (d : String) :
    ∀ (rows : List Obs) (acc : Option ℚ), (∀ o ∈ rows, o.date ≠ d) →
      rows.foldl (fun acc r => if r.date == d then some r.value else acc) acc = acc := by
  intro rows
  induction rows with
  | nil => intro acc _; rfl
  | cons r rs ih =>
    intro acc h
    have hr : r.date ≠ d := h r (by simp)
    have : (r.date == d) = false := by simpa using hr
    simp only [List.foldl_cons, this, Bool.false_eq_true, if_false]
    exact ih acc (fun o ho => h o (by simp [ho]))

theorem dateLookup_eq_none {rows : List Obs} {d : String}
    (h : ∀ o ∈ rows, o.date ≠ d) : dateLookup rows d = none :=
  dateLookup_acc d rows none h

theorem fetchBatch_error_of_mem (respOf : String → ObsResp) (t : Option (ℚ → ℚ)) :
    ∀ (ids : List String) (sid : String), sid ∈ ids → ∀ s, respOf sid = .fail s →
      ∃ e, fetchBatch respOf t ids = .error e := by
  intro ids
  induction ids with
  | nil => intro sid hx; simp at hx
  | cons a rest ih =>
    intro sid hx s he
    cases hfa : respOf a with
    | fail st =>
      refine ⟨"HTTP " ++ toString st, ?_⟩
      simp [fetchBatch, fetchOne, hfa]
    | ok raw =>
      rcases List.mem_cons.mp hx with hxa | hxt
      · subst hxa; rw [hfa] at he; cases he
      · rcases ih sid hxt s he with ⟨e2, h2⟩
        refine ⟨e2, ?_⟩
        simp [fetchBatch, fetchOne, hfa, h2]

theorem mem_fetchRequests_iff (planned : List Planned)
    (cache : String → Option (List Obs)) (sid : String) :
    sid ∈ fetchRequests planned cache ↔
      ∃ p ∈ planned, cache p.seriesId = none ∧ p.seriesId = sid := by
  unfold fetchRequests missingSeries
  simp only [List.mem_map, List.mem_filter]
  constructor
  · rintro ⟨p, ⟨hp, hc⟩, hs⟩
    refine ⟨p, hp, ?_, hs⟩
    cases h : cache p.seriesId with
    | none => rfl
    | some v => rw [h] at hc; simp at hc
  · rintro ⟨p, hp, hc, hs⟩
    exact ⟨p, ⟨hp, by simp [hc]⟩, hs⟩

/-! Claim theorems. -/

/-- C7: switching the indicator clears both the series cache and the
resolved-id map to empty, so a subsequent resolution never sees a stale
discovered id: resolving against the post-switch map coincides with resolving
against the empty map, whatever was discovered before. -/
theorem onSelectIndicator_clears :
    ∀ (st : AppState) (newKey : String),
      (∀ sid, (onSelectIndicator newKey st).seriesCache sid = none) ∧
      (∀ key, (onSelectIndicator newKey st).seriesIdMap key = none) ∧
      (onSelectIndicator newKey st).indicatorKey = newKey ∧
      (∀ (ik : String) (ind : Indicator) (cbsa : String),
        resolveSeriesId ik ind (onSelectIndicator newKey st).seriesIdMap cbsa =
          resolveSeriesId ik ind (fun _ => none) cbsa) := by
  intro st newKey
  exact ⟨fun _ => rfl, fun _ => rfl, rfl, fun _ _ _ => rfl⟩

/-- C1 counterexample: in a fresh session (no discovered ids) with indicator
HOUSING_HPI and the two statically overridden regions selected, a discovery
search request is nonetheless issued for the overridden pair 33100 — the
discovery loop consults only the session map, never the static override
table. -/
theorem override_discovery_request_issued :
    "HOUSING_HPI|33100" ∈
      discoveryKeys "HOUSING_HPI" HOUSING_HPI
        (plannedSeries "HOUSING_HPI" HOUSING_HPI ["33100", "45300"] emptyStrMap)
        emptyStrMap := by decide

/-- C1 amended: for every pair in the static override table the resolved id is
exactly the overridden id (the override wins over any session-discovered id
and over the pattern id); for HOUSING_HPI with regions 33100 and 45300 the
resolver yields ACTLISCOU33100 and ACTLISCOU45300 whatever the session map
holds.  However, when the indicator needs discovery and the session map has no
truthy entry for the pair, a discovery search request is still issued for it. -/
theorem static_override_wins :
    ∀ (sMap : String → Option String),
      resolveSeriesId "HOUSING_HPI" HOUSING_HPI sMap "33100" = "ACTLISCOU33100" ∧
      resolveSeriesId "HOUSING_HPI" HOUSING_HPI sMap "45300" = "ACTLISCOU45300" ∧
      resolveSeriesId "HOUSING_HPI" HOUSING_HPI sMap "36740" = "ACTLISCOU36740" ∧
      (∀ (ik : String) (ind : Indicator) (cbsa v : String),
        lookupOverride (mkKey ik cbsa) = some v → v ≠ "" →
          resolveSeriesId ik ind sMap cbsa = v) ∧
      (strTruthy (sMap "HOUSING_HPI|33100") = false →
        "HOUSING_HPI|33100" ∈
          discoveryKeys "HOUSING_HPI" HOUSING_HPI
            (plannedSeries "HOUSING_HPI" HOUSING_HPI ["33100", "45300"] sMap) sMap) := by
  intro sMap
  refine ⟨rfl, rfl, rfl, ?_, ?_⟩
  · intro ik ind cbsa v hov hne
    unfold resolveSeriesId
    rw [hov]
    simp [jsOr, jsStr, hne]
  · intro h
    have hmem : (⟨"33100", msaNameOf "33100",
        resolveSeriesId "HOUSING_HPI" HOUSING_HPI sMap "33100"⟩ : Planned) ∈
        plannedSeries "HOUSING_HPI" HOUSING_HPI ["33100", "45300"] sMap := by
      unfold plannedSeries
      exact List.mem_map.mpr ⟨"33100", by simp, rfl⟩
    unfold discoveryKeys
    rw [if_pos (show HOUSING_HPI.needsDiscovery = true from rfl)]
    refine List.mem_map.mpr ⟨_, List.mem_filter.mpr ⟨hmem, ?_⟩, rfl⟩
    rw [show mkKey "HOUSING_HPI" "33100" = "HOUSING_HPI|33100" from rfl, h]
    rfl

/-- C1 witness: the amended theorem applied to the empty session map. -/
theorem static_override_wins_witness :
    lookupOverride (mkKey "HOUSING_HPI" "33100") = some "ACTLISCOU33100" ∧
    ("ACTLISCOU33100" : String) ≠ "" ∧
    resolveSeriesId "HOUSING_HPI" HOUSING_HPI emptyStrMap "33100" = "ACTLISCOU33100" ∧
    strTruthy (emptyStrMap "HOUSING_HPI|33100") = false ∧
    "HOUSING_HPI|33100" ∈
      discoveryKeys "HOUSING_HPI" HOUSING_HPI
        (plannedSeries "HOUSING_HPI" HOUSING_HPI ["33100", "45300"] emptyStrMap)
        emptyStrMap :=
  ⟨by decide, by decide,
   (static_override_wins emptyStrMap).2.2.2.1 "HOUSING_HPI" HOUSING_HPI "33100"
     "ACTLISCOU33100" (by decide) (by decide),
   rfl, (static_override_wins emptyStrMap).2.2.2.2 rfl⟩

/-- C8: a fetch batch requests exactly the planned series ids missing from the
cache: an id with a cache entry is never requested, every requested id is a
planned id with no cache entry, and every planned id with no cache entry is
requested. -/
theorem fetch_only_missing :
    ∀ (planned : List Planned) (cache : String → Option (List Obs)),
      (∀ sid, (cache sid).isSome = true → sid ∉ fetchRequests planned cache) ∧
      (∀ sid, sid ∈ fetchRequests planned cache →
        cache sid = none ∧ sid ∈ planned.map Planned.seriesId) ∧
      (∀ p ∈ planned, cache p.seriesId = none →
        p.seriesId ∈ fetchRequests planned cache) := by
  intro planned cache
  refine ⟨?_, ?_, ?_⟩
  · intro sid hs hmem
    rcases (mem_fetchRequests_iff planned cache sid).mp hmem with ⟨p, _, hc, he⟩
    rw [he] at hc
    rw [hc] at hs
    simp at hs
  · intro sid hmem
    rcases (mem_fetchRequests_iff planned cache sid).mp hmem with ⟨p, hp, hc, he⟩
    exact ⟨he ▸ hc, List.mem_map.mpr ⟨p, hp, he⟩⟩
  · intro p hp hc
    exact (mem_fetchRequests_iff planned cache p.seriesId).mpr ⟨p, hp, hc, rfl⟩

/-- C8 witness: the theorem applied to the fresh GDP plan for Tampa. -/
theorem fetch_only_missing_witness :
    pTampaGdp ∈ plannedSeries "GDP" GDP ["45300"] emptyStrMap ∧
    emptyCache pTampaGdp.seriesId = none ∧
    pTampaGdp.seriesId ∈
      fetchRequests (plannedSeries "GDP" GDP ["45300"] emptyStrMap) emptyCache :=
  ⟨by decide, rfl,
   (fetch_only_missing (plannedSeries "GDP" GDP ["45300"] emptyStrMap)
     emptyCache).2.2 pTampaGdp (by decide) rfl⟩

/-- C2 counterexample: in a fresh GDP session with Miami and Tampa selected,
the Miami observations request succeeds and the Tampa one returns HTTP 500;
the run writes nothing into the cache — the succeeding series included — and
the surfaced error indicator is the empty string, not a non-empty generic
error. -/
theorem batch_partial_failure_counterexample :
    (fetchMissing noSearch respPartial GDP stGdp).seriesCache "RGMP33100" = none ∧
    (fetchMissing noSearch respPartial GDP stGdp).errorMsg = "" := ⟨rfl, rfl⟩

/-- C2 amended: when the observations request for any series id in a fetch
batch returns a non-success HTTP response, the whole batch is rejected: the
cache is left exactly as it was (no series of the batch, succeeding or not, is
written), and the session error indicator is set to the empty string. -/
theorem fetch_failure_discards_batch :
    ∀ (searchOf : String → Option (List SeriesItem)) (respOf : String → ObsResp)
      (ind : Indicator) (st : AppState) (p : Planned) (s : Nat),
      p ∈ missingSeries
            (plannedSeries st.indicatorKey ind st.selectedMsas st.seriesIdMap)
            st.seriesCache →
      respOf p.seriesId = ObsResp.fail s →
      (∀ sid, (fetchMissing searchOf respOf ind st).seriesCache sid = st.seriesCache sid) ∧
      (fetchMissing searchOf respOf ind st).errorMsg = "" := by
  intro searchOf respOf ind st p s hmem hresp
  have hne : (missingSeries
      (plannedSeries st.indicatorKey ind st.selectedMsas st.seriesIdMap)
      st.seriesCache).isEmpty = false := by
    cases hm : missingSeries
        (plannedSeries st.indicatorKey ind st.selectedMsas st.seriesIdMap)
        st.seriesCache with
    | nil => rw [hm] at hmem; simp at hmem
    | cons a t => rfl
  obtain ⟨e, herr⟩ := fetchBatch_error_of_mem respOf ind.transformValue
    ((missingSeries
      (plannedSeries st.indicatorKey ind st.selectedMsas st.seriesIdMap)
      st.seriesCache).map Planned.seriesId) p.seriesId
    (List.mem_map.mpr ⟨p, hmem, rfl⟩) s hresp
  have hgoal : fetchMissing searchOf respOf ind st =
      { st with
          seriesIdMap := if ind.needsDiscovery then
              applyDiscoveries st.indicatorKey ind st.seriesIdMap searchOf
                (plannedSeries st.indicatorKey ind st.selectedMsas st.seriesIdMap)
            else st.seriesIdMap,
          errorMsg := "", loading := false } := by
    simp only [fetchMissing]
    rw [hne]
    simp only [Bool.false_eq_true, if_false]
    rw [herr]
    rfl
  rw [hgoal]
  exact ⟨fun _ => rfl, rfl⟩

/-- C2 witness: the amended theorem applied to the fresh GDP session in which
the Tampa request fails with HTTP 500. -/
theorem fetch_failure_discards_batch_witness :
    pTampaGdp ∈ missingSeries
        (plannedSeries stGdp.indicatorKey GDP stGdp.selectedMsas stGdp.seriesIdMap)
        stGdp.seriesCache ∧
    respPartial pTampaGdp.seriesId = ObsResp.fail 500 ∧
    (fetchMissing noSearch respPartial GDP stGdp).seriesCache "RGMP33100" =
      stGdp.seriesCache "RGMP33100" ∧
    (fetchMissing noSearch respPartial GDP stGdp).errorMsg = "" :=
  ⟨by decide, by decide,
   (fetch_failure_discards_batch noSearch respPartial GDP stGdp pTampaGdp 500
     (by decide) (by decide)).1 "RGMP33100",
   (fetch_failure_discards_batch noSearch respPartial GDP stGdp pTampaGdp 500
     (by decide) (by decide)).2⟩

/-- C3 counterexample: HOUSING_HPI with Atlanta selected (no static override,
no discovered id); the search returns an empty candidate list, so no id is
stored in the session map — yet the planner assigns the deterministic pattern
id ACTLISCOU12060 to the pair and an observations fetch is attempted for it,
contradicting the claim that no series id is assigned and no fetch is
attempted. -/
theorem empty_search_fallback_counterexample :
    (fetchMissing searchEmptyList respNotFound HOUSING_HPI stHousingAtl).seriesIdMap
        "HOUSING_HPI|12060" = none ∧
    plannedSeries "HOUSING_HPI" HOUSING_HPI ["12060"] emptyStrMap = [pAtl] ∧
    pAtl.seriesId = "ACTLISCOU12060" ∧
    "ACTLISCOU12060" ∈
      fetchRequests (plannedSeries "HOUSING_HPI" HOUSING_HPI ["12060"] emptyStrMap)
        emptyCache :=
  ⟨rfl, by decide, by decide, by decide⟩

/-- C3 amended: an empty candidate list makes the discovery step store nothing
for the pair (silent failure); the planner then falls back to the
deterministic pattern id for the pair, and an observations fetch is attempted
for that pattern id whenever it is not cached. -/
theorem empty_search_silent_pattern_fallback :
    (∀ (ik : String) (ind : Indicator) (sMap : String → Option String)
      (searchOf : String → Option (List SeriesItem)) (p : Planned),
      strTruthy (sMap (mkKey ik p.cbsa)) = false →
      searchOf (searchQuery ind p) = some [] →
      discoverEntry ik ind sMap searchOf p = none) ∧
    (∀ (ik : String) (ind : Indicator) (sMap : String → Option String) (cbsa : String),
      lookupOverride (mkKey ik cbsa) = none → sMap (mkKey ik cbsa) = none →
      resolveSeriesId ik ind sMap cbsa = ind.seriesIdForCbsa cbsa) ∧
    (∀ (planned : List Planned) (cache : String → Option (List Obs)) (p : Planned),
      p ∈ planned → cache p.seriesId = none →
      p.seriesId ∈ fetchRequests planned cache) := by
  refine ⟨?_, ?_, ?_⟩
  · intro ik ind sMap searchOf p hmap hsearch
    simp [discoverEntry, hmap, hsearch]
  · intro ik ind sMap cbsa hov hmap
    unfold resolveSeriesId
    rw [hov, hmap]
    rfl
  · intro planned cache p hp hc
    exact (mem_fetchRequests_iff planned cache p.seriesId).mpr ⟨p, hp, hc, rfl⟩

/-- C3 witness: the amended theorem applied to the Atlanta HOUSING_HPI pair
with the empty-candidate search oracle. -/
theorem empty_search_silent_pattern_fallback_witness :
    strTruthy (emptyStrMap (mkKey "HOUSING_HPI" pAtl.cbsa)) = false ∧
    searchEmptyList (searchQuery HOUSING_HPI pAtl) = some [] ∧
    discoverEntry "HOUSING_HPI" HOUSING_HPI emptyStrMap searchEmptyList pAtl = none ∧
    lookupOverride (mkKey "HOUSING_HPI" "12060") = none ∧
    resolveSeriesId "HOUSING_HPI" HOUSING_HPI emptyStrMap "12060" =
      HOUSING_HPI.seriesIdForCbsa "12060" ∧
    pAtl ∈ [pAtl] ∧
    emptyCache pAtl.seriesId = none ∧
    pAtl.seriesId ∈ fetchRequests [pAtl] emptyCache :=
  ⟨rfl, rfl,
   empty_search_silent_pattern_fallback.1 "HOUSING_HPI" HOUSING_HPI emptyStrMap
     searchEmptyList pAtl rfl rfl,
   by decide,
   empty_search_silent_pattern_fallback.2.1 "HOUSING_HPI" HOUSING_HPI emptyStrMap
     "12060" (by decide) rfl,
   by decide, rfl,
   empty_search_silent_pattern_fallback.2.2 [pAtl] emptyCache pAtl (by decide) rfl⟩

/-- C4: the cleaning step keeps exactly the non-sentinel records (dropping
every record whose value is the sentinel dot), maps each retained record to
its parsed value with the optional transform applied, and orders the result
by date ascending; the concrete scenario raw input cleans to exactly one
observation with value 100. -/
theorem cleanObs_spec :
    ∀ (t : Option (ℚ → ℚ)) (raw : List RawObs),
      (cleanObs t raw).Perm
        ((raw.filter (fun d => !(d.value == "."))).map (fun d =>
          { date := d.date, value := applyTransform t (parseDecimal d.value) })) ∧
      List.Pairwise (fun a b : Obs => strLe a.date b.date = true) (cleanObs t raw) ∧
      cleanObs none [⟨"2024-01-01", "100"⟩, ⟨"2024-02-01", "."⟩] =
        [⟨"2024-01-01", 100⟩] := by
  intro t raw
  refine ⟨List.mergeSort_perm _ _, ?_, ?_⟩
  · apply List.sorted_mergeSort
    · exact fun a b c h1 h2 => obsLe_trans a b c h1 h2
    · exact fun a b => obsLe_total a b
  · unfold cleanObs
    rw [show List.filter (fun d => !(d.value == "."))
        [(⟨"2024-01-01", "100"⟩ : RawObs), ⟨"2024-02-01", "."⟩] =
        [⟨"2024-01-01", "100"⟩] from by decide]
    rw [List.map_cons, List.map_nil, mergeSort_single]
    simp [applyTransform, parseDecimal_100]

/-- C5: the unified date axis is sorted (so recomputing it over the same cache
and plan gives the identical sorted axis — the computation is a pure function
of its inputs), has no duplicates, and is monotone under extending the
selection: every date of the axis is still on the axis after more regions are
appended to the plan. -/
theorem unifiedDates_props :
    ∀ (planned extra : List Planned) (cache : String → Option (List Obs)),
      List.Pairwise (fun a b : String => strLe a b = true) (unifiedDates planned cache) ∧
      (unifiedDates planned cache).Nodup ∧
      (∀ d ∈ unifiedDates planned cache, d ∈ unifiedDates (planned ++ extra) cache) := by
  intro planned extra cache
  refine ⟨?_, ?_, ?_⟩
  · apply List.sorted_mergeSort
    · exact fun a b c h1 h2 => strLe_trans h1 h2
    · exact fun a b => strLe_total a b
  · exact (List.mergeSort_perm _ strLe).symm.nodup (List.nodup_dedup _)
  · intro d hd
    unfold unifiedDates at hd ⊢
    rw [List.mem_mergeSort, List.mem_dedup] at hd ⊢
    simp only [List.mem_flatten, List.mem_map] at hd ⊢
    rcases hd with ⟨l, ⟨p, hp, hl⟩, hdl⟩
    exact ⟨l, ⟨p, List.mem_append_left _ hp, hl⟩, hdl⟩

unseal List.merge List.mergeSort in
/-- C5 witness: the theorem applied to the Miami plan and a cache holding one
observation, extending the selection by Tampa. -/
theorem unifiedDates_props_witness :
    "2024-01-01" ∈ unifiedDates [pMiami] cacheOneObs ∧
    "2024-01-01" ∈ unifiedDates ([pMiami] ++ [pTampa]) cacheOneObs :=
  ⟨by decide,
   (unifiedDates_props [pMiami] [pTampa] cacheOneObs).2.2 "2024-01-01" (by decide)⟩

/-- C6 counterexample: a provider response carrying two records with the same
date is cleaned and stored in the cache as a series whose date sequence has a
duplicate — the cleaning step sorts but never deduplicates, so the cached
series is not strictly ordered by date. -/
theorem duplicate_dates_counterexample :
    ∃ out, (fetchMissing noSearch respDupDates GDP stGdpMiami).seriesCache "RGMP33100" =
        some out ∧ ¬ (out.map Obs.date).Nodup := by
  refine ⟨cleanObs none dupRaw, rfl, ?_⟩
  intro h
  have hperm := (List.mergeSort_perm
    ((dupRaw.filter (fun d => !(d.value == "."))).map (fun d =>
      ({ date := d.date, value := applyTransform none (parseDecimal d.value) } : Obs)))
    obsLe).map Obs.date
  have hlit : ((dupRaw.filter (fun d => !(d.value == "."))).map (fun d =>
      ({ date := d.date, value := applyTransform none (parseDecimal d.value) } : Obs))).map
      Obs.date = ["2024-01-01", "2024-01-01"] := rfl
  rw [hlit] at hperm
  have := hperm.nodup h
  simp at this

/-- C6 amended: every cleaned series is sorted non-decreasing by date and
contains only entries originating from non-sentinel raw records; it is
strictly ascending (duplicate dates excluded) provided the retained raw
records have pairwise-distinct dates. -/
theorem cleanObs_invariant :
    ∀ (t : Option (ℚ → ℚ)) (raw : List RawObs),
      List.Pairwise (fun a b : Obs => strLe a.date b.date = true) (cleanObs t raw) ∧
      (∀ o ∈ cleanObs t raw, ∃ r ∈ raw, r.value ≠ "." ∧ o.date = r.date) ∧
      (((raw.filter (fun d => !(d.value == "."))).map RawObs.date).Nodup →
        List.Pairwise (fun a b : Obs => strLe a.date b.date = true ∧ a.date ≠ b.date)
          (cleanObs t raw)) := by
  intro t raw
  have hsorted : List.Pairwise (fun a b : Obs => strLe a.date b.date = true)
      (cleanObs t raw) := by
    apply List.sorted_mergeSort
    · exact fun a b c h1 h2 => obsLe_trans a b c h1 h2
    · exact fun a b => obsLe_total a b
  refine ⟨hsorted, ?_, ?_⟩
  · intro o ho
    rw [cleanObs, List.mem_mergeSort] at ho
    rcases List.mem_map.mp ho with ⟨r, hr, hro⟩
    rcases List.mem_filter.mp hr with ⟨hraw, hcond⟩
    refine ⟨r, hraw, by simpa using hcond, ?_⟩
    rw [← hro]
  · intro hnodup
    have hperm : ((cleanObs t raw).map Obs.date).Perm
        ((raw.filter (fun d => !(d.value == "."))).map RawObs.date) := by
      have h1 := (List.mergeSort_perm
        ((raw.filter (fun d => !(d.value == "."))).map (fun d =>
          ({ date := d.date, value := applyTransform t (parseDecimal d.value) } : Obs)))
        obsLe).map Obs.date
      simpa [List.map_map, Function.comp] using h1
    have hn2 : ((cleanObs t raw).map Obs.date).Nodup := hperm.symm.nodup hnodup
    have hne : List.Pairwise (fun a b : Obs => a.date ≠ b.date) (cleanObs t raw) :=
      List.pairwise_map.mp hn2
    exact hsorted.and hne

/-- C6 witness: the amended theorem applied to the two-record scenario input,
whose retained record dates are distinct. -/
theorem cleanObs_invariant_witness :
    ((scenarioRaw.filter (fun d => !(d.value == "."))).map RawObs.date).Nodup ∧
    List.Pairwise (fun a b : Obs => strLe a.date b.date = true ∧ a.date ≠ b.date)
      (cleanObs none scenarioRaw) :=
  ⟨by decide, (cleanObs_invariant none scenarioRaw).2.2 (by decide)⟩

/-- C9: a single-region selection yields the single table mode carrying the
whole cached series, of which the rendered slice shows at most the last 50
observations (a suffix of the series); a selection of two or more regions
yields the multi mode carrying exactly the last 12 dates of the unified axis
(a suffix, of length 12 whenever the axis is at least that long) pivoted by
region, and a cell whose series has no value at the row date is the explicit
missing marker none, not zero. -/
theorem tableData_modes :
    (∀ (cache : String → Option (List Obs)) (p : Planned),
      tableData [p] cache = .single ((cache p.seriesId).getD []) ∧
      (singleShown ((cache p.seriesId).getD [])).length ≤ 50 ∧
      List.IsSuffix (singleShown ((cache p.seriesId).getD []))
        ((cache p.seriesId).getD [])) ∧
    (∀ (cache : String → Option (List Obs)) (planned : List Planned),
      2 ≤ planned.length →
      tableData planned cache =
        .multi (lastN 12 (unifiedDates planned cache))
          ((lastN 12 (unifiedDates planned cache)).map (fun d =>
            (d, planned.map (fun q => dateLookup ((cache q.seriesId).getD []) d)))) ∧
      (lastN 12 (unifiedDates planned cache)).length =
        min 12 (unifiedDates planned cache).length ∧
      List.IsSuffix (lastN 12 (unifiedDates planned cache))
        (unifiedDates planned cache)) ∧
    (∀ (rows : List Obs) (d : String), (∀ o ∈ rows, o.date ≠ d) →
      dateLookup rows d = none) := by
  refine ⟨?_, ?_, fun rows d h => dateLookup_eq_none h⟩
  · intro cache p
    refine ⟨rfl, ?_, ?_⟩
    · unfold singleShown lastN
      simp [List.length_drop]
      omega
    · exact List.drop_suffix _ _
  · intro cache planned h2
    cases planned with
    | nil => simp at h2
    | cons a t =>
      cases t with
      | nil => simp at h2
      | cons b t2 =>
        refine ⟨rfl, ?_, ?_⟩
        · unfold lastN
          simp [List.length_drop]
          omega
        · exact List.drop_suffix _ _

unseal List.merge List.mergeSort in
/-- C9 witness: the theorem applied to a one-region and a two-region
selection over the one-observation cache, and to a date absent from a
series. -/
theorem tableData_modes_witness :
    tableData [pMiami] cacheOneObs = .single [⟨"2024-01-01", 0⟩] ∧
    2 ≤ ([pMiami, pTampa] : List Planned).length ∧
    tableData [pMiami, pTampa] cacheOneObs =
      .multi (lastN 12 (unifiedDates [pMiami, pTampa] cacheOneObs))
        ((lastN 12 (unifiedDates [pMiami, pTampa] cacheOneObs)).map (fun d =>
          (d, [pMiami, pTampa].map (fun q =>
            dateLookup ((cacheOneObs q.seriesId).getD []) d)))) ∧
    dateLookup [⟨"2024-01-01", 0⟩] "1999-01-01" = none :=
  ⟨by rw [(tableData_modes.1 cacheOneObs pMiami).1]; rfl, by decide,
   (tableData_modes.2.1 cacheOneObs [pMiami, pTampa] (by decide)).1,
   tableData_modes.2.2 [⟨"2024-01-01", 0⟩] "1999-01-01" (by decide)⟩

/-- C10: for every non-empty candidate list the HOUSING_HPI pick function
yields some id, chosen in this order: the first filtered candidate (id
starting with ACTLISCOU, title containing the listing-count phrase, case
insensitive) whose id contains the region code; else the first filtered
candidate; else the first candidate of the list. -/
theorem housingPickSeries_spec :
    ∀ (items : List SeriesItem) (ctx : PickCtx), items ≠ [] →
      (∃ id, housingPickSeries items ctx = some id) ∧
      (∀ s, (housingCandidates items).find? (fun c => containsStr ctx.cbsa c.id) = some s →
        housingPickSeries items ctx = some s.id) ∧
      ((housingCandidates items).find? (fun c => containsStr ctx.cbsa c.id) = none →
        ∀ c cs, housingCandidates items = c :: cs →
          housingPickSeries items ctx = some c.id) ∧
      (housingCandidates items = [] → ∀ i rest, items = i :: rest →
        housingPickSeries items ctx = some i.id) := by
  intro items ctx hne
  refine ⟨?_, ?_, ?_, ?_⟩
  · cases hf : (housingCandidates items).find? (fun c => containsStr ctx.cbsa c.id) with
    | some s => exact ⟨s.id, by simp [housingPickSeries, hf]⟩
    | none =>
      cases hc : housingCandidates items with
      | cons c cs =>
        rw [hc] at hf
        exact ⟨c.id, by simp [housingPickSeries, hc, hf]⟩
      | nil =>
        cases items with
        | nil => exact absurd rfl hne
        | cons i rest => exact ⟨i.id, by simp [housingPickSeries, hc, hf]⟩
  · intro s hf
    simp [housingPickSeries, hf]
  · intro hf c cs hc
    rw [hc] at hf
    simp [housingPickSeries, hf, hc]
  · intro hc i rest hitems
    subst hitems
    have hf : (housingCandidates (i :: rest)).find?
        (fun c => containsStr ctx.cbsa c.id) = none := by
      rw [hc]; rfl
    simp [housingPickSeries, hf, hc]

/-- C10 witness: the theorem applied to a singleton candidate list matching
both the filter pattern and the Miami region code. -/
theorem housingPickSeries_spec_witness :
    ([itemMiami] : List SeriesItem) ≠ [] ∧
    (housingCandidates [itemMiami]).find?
      (fun c => containsStr "33100" c.id) = some itemMiami ∧
    housingPickSeries [itemMiami] ⟨"33100", "Miami"⟩ = some "ACTLISCOU33100" :=
  ⟨by decide, by decide,
   (housingPickSeries_spec [itemMiami] ⟨"33100", "Miami"⟩ (by decide)).2.1 itemMiami
     (by decide)⟩

end Dashboard
